import Mathlib

/-!
Verification of the core subsystems of the dte console text editor against
its natural-language specification.

The development shallowly embeds, in Lean 4:

* the per-line start-state cache of the incremental syntax highlighter
  (`src/hl.c`: `find_hole`, `new_hole`, `truncate_line_states`,
  `hl_fill_start_states`, `hl_line`, `hl_insert`, `hl_delete`);
* the inner condition-walking loop of `highlight_line` (`src/hl.c`);
* one iteration of the bidirectional pipe `filter` loop
  (`src/src/spawn.c`);
* the exec action tables and validity check of `cmd_exec`
  (`src/src/commands.c`), the output routing of `handle_exec`
  (`src/src/exec.c`), and the file-descriptor lifecycle of `spawn`
  (`src/src/spawn.c`).

Machine states of the highlighter are an abstract type `σ`; the cache code
in C manipulates `struct state *` pointers without inspecting them, so the
end-state of `highlight_line` on one line is abstracted as a function
`f : σ → L → σ` (the `.state` component of the spec's `line_hl`), and the
cache slots are `Option σ` (`NULL` = `none`).

C loops are embedded as structurally recursive functions on an explicit
iteration bound that is exact by construction: `find_hole` scans at most
`slots.length - pos` entries, and the fill loop of `hl_fill_start_states`
strictly increases `first_hole` on every iteration (proved in
`fillStep_firstHole_lt` below), so at most `line_nr + 2 - first_hole`
iterations run before the loop's own guard stops it.  The bound-zero
branches reproduce the loop guard, so the embeddings compute the exact
behaviour of the C loops.  Undefined behaviour of the C code (dereferencing
a `NULL` state, out-of-bounds indexing, a firing `BUG_ON`, a signed-int
underflow) is modelled by returning `none` from an `Option`-valued
function.
-/

/-- The line-start-state cache of one buffer: `buffer->line_start_states`
(a pointer array whose entries are `struct state *`, `NULL` marking an
unknown entry) together with `buffer->first_hole`.  `slots.length` plays
the role of the C `count` field. -/
structure HlCache (σ : Type) where
  slots : List (Option σ)
  firstHole : Nat
deriving DecidableEq, Repr

/-- One step of the scan in `find_hole` (src/hl.c:249): advance while the
slot at `pos` is non-`NULL`.  The bound is the number of entries left to
scan; it is consumed exactly when `pos` reaches the end of the array, which
is also when the C loop condition `pos < s->count` fails. -/
def findHoleGo {σ : Type} (slots : List (Option σ)) : Nat → Nat → Nat
  | 0, pos => pos
  | bound + 1, pos =>
    match slots[pos]? with
    | some (some _) => findHoleGo slots bound (pos + 1)
    | _ => pos

/-- `find_hole` (src/hl.c:249): return the first index `≥ pos` holding
`NULL`, or the count if none does.  The C function assigns the result to
`buffer->first_hole`; here it is returned. -/
def find_hole {σ : Type} (slots : List (Option σ)) (pos : Nat) : Nat :=
  findHoleGo slots (slots.length - pos) pos

/-- `truncate_line_states` (src/hl.c:217): shrink the array to `count`
entries and clamp `first_hole` to the new count. -/
def truncate_line_states {σ : Type} (count : Nat) (c : HlCache σ) : HlCache σ :=
  { slots := c.slots.take count, firstHole := min c.firstHole count }

/-- `new_hole` (src/hl.c:227): mark line-start index `idx` as possibly
invalid.  If `idx` is beyond `first_hole` the only way to mark it is to
store `NULL` there; if it is before `first_hole`, the old first hole (which
may never have been set to `NULL`) is `NULL`-ed and `first_hole` moves back
to `idx`. -/
def new_hole {σ : Type} (idx : Nat) (c : HlCache σ) : HlCache σ :=
  if idx = c.firstHole then c
  else if idx > c.firstHole then
    { slots := if idx < c.slots.length then c.slots.set idx none else c.slots,
      firstHole := c.firstHole }
  else
    { slots := if c.firstHole < c.slots.length then c.slots.set c.firstHole none else c.slots,
      firstHole := idx }

/-- The body of the `while (1)` loop of `hl_fill_start_states`
(src/hl.c:274-311), for one iteration that passed the
`first_hole > line_nr` guard.  `lines` is the buffer's line contents, read
through the block iterator in C.  `none` models undefined behaviour:
`first_hole == 0` (the C index `first_hole - 1` underflows),
a `NULL` start state passed to `highlight_line`, reading a line the buffer
does not have, or the `BUG_ON(idx > s->count)`. -/
def fillStep {σ L : Type} [DecidableEq σ] (f : σ → L → σ) (lines : List L)
    (c : HlCache σ) : Option (HlCache σ) :=
  if c.firstHole = 0 then none
  else
    let idx0 := c.firstHole - 1
    match c.slots[idx0]?, lines[idx0]? with
    | some (some st0), some line =>
      let st := f st0 line
      let idx := c.firstHole
      if idx = c.slots.length then
        -- new: append, s->count++, first_hole = s->count
        some { slots := c.slots ++ [some st], firstHole := c.slots.length + 1 }
      else
        match c.slots[idx]? with
        | none => none
        | some none =>
          -- fill the NULL slot, first_hole++
          some { slots := c.slots.set idx (some st), firstHole := c.firstHole + 1 }
        | some (some prev) =>
          if prev = st then
            -- hole successfully closed: find next
            some { slots := c.slots, firstHole := find_hole c.slots (idx + 1) }
          else
            -- hole filled but state changed
            some { slots := c.slots.set idx (some st), firstHole := idx + 1 }
    | _, _ => none

/-- The `while (1)` loop of `hl_fill_start_states` (src/hl.c:274): iterate
`fillStep` until `first_hole > line_nr`.  The bound-zero branch repeats the
loop guard; `fillStep_firstHole_lt` below shows the bound chosen in
`hl_fill_start_states` is never exhausted. -/
def fillGo {σ L : Type} [DecidableEq σ] (f : σ → L → σ) (lines : List L)
    (line_nr : Nat) : Nat → HlCache σ → Option (HlCache σ)
  | 0, c => if line_nr < c.firstHole then some c else none
  | bound + 1, c =>
    if line_nr < c.firstHole then some c
    else
      match fillStep f lines c with
      | none => none
      | some c' => fillGo f lines line_nr bound c'

/-- `hl_fill_start_states` (src/hl.c:263): repair the cache so that
`first_hole > line_nr`.  (The early return when the buffer has no syntax
and the capacity-only `resize_line_states` are outside the model.) -/
def hl_fill_start_states {σ L : Type} [DecidableEq σ] (f : σ → L → σ)
    (lines : List L) (line_nr : Nat) (c : HlCache σ) : Option (HlCache σ) :=
  fillGo f lines line_nr (line_nr + 2 - c.firstHole) c

/-- The cache update performed by `hl_line` (src/hl.c:314) when the caller
asks for the colors of line `line_nr`.  The colors themselves are computed
by `highlight_line` and returned to the caller; only the end state `next`
touches the cache, so the model keeps the cache effect.  `none` models the
`BUG_ON(line_nr >= s->count)`, a `NULL` start state, and the final
`BUG_ON(s->ptrs[line_nr] != next)`. -/
def hl_line_states {σ L : Type} [DecidableEq σ] (f : σ → L → σ)
    (lines : List L) (line_nr : Nat) (c : HlCache σ) : Option (HlCache σ) :=
  if line_nr < c.slots.length then
    match c.slots[line_nr]?, lines[line_nr]? with
    | some (some st0), some line =>
      let next := f st0 line
      let idx := line_nr + 1
      if idx = c.slots.length then
        some { slots := c.slots ++ [some next], firstHole := c.slots.length + 1 }
      else
        match c.slots[idx]? with
        | none => none
        | some none =>
          -- NOTE (from the source): this can leave first_hole pointing at a
          -- non-NULL state
          some { slots := c.slots.set idx (some next), firstHole := idx + 1 }
        | some (some prev) =>
          if idx = c.firstHole then
            if prev = next then
              some { slots := c.slots, firstHole := find_hole c.slots (idx + 1) }
            else
              some { slots := c.slots.set c.firstHole (some next),
                     firstHole := c.firstHole + 1 }
          else if prev = next then some c
          else none
    | _, _ => none
  else none

/-- The invalidation loop of `hl_insert` (src/hl.c:390): set entries
`lo..hi` (inclusive) to `NULL`. -/
def nullRange {σ : Type} (slots : List (Option σ)) (lo hi : Nat) : List (Option σ) :=
  (List.range' lo (hi + 1 - lo)).foldl (fun acc i => acc.set i none) slots

/-- `hl_insert` (src/hl.c:355): called after text containing `nl` newlines
has been inserted into line `first`.  For the non-truncating branch, the
composite of `resize_line_states`, `move_line_states (to := last+1,
from := first+1)`, the count update and the invalidation loop over
`first+1..last+1` is `nullRange (take (last+1) ++ drop (first+1))`:
entries `0..first` keep their old values, `first+1..last+1` become `NULL`,
and the old entries from `first+2` on are shifted up by `nl`. -/
def hl_insert {σ : Type} (first nl : Nat) (c : HlCache σ) : HlCache σ :=
  let count := c.slots.length
  let last := first + nl
  if first ≥ count then c
  else if last + 1 ≥ count then truncate_line_states (first + 1) c
  else
    let slots1 :=
      if nl = 0 then c.slots
      else nullRange (c.slots.take (last + 1) ++ c.slots.drop (first + 1))
        (first + 1) (last + 1)
    new_hole (first + 1) { slots := slots1, firstHole := c.firstHole }

/-- `hl_delete` (src/hl.c:397): called after text containing `deleted_nl`
newlines has been deleted starting in line `first`.  In the truncating
branch the C code computes `s->count - deleted_nl` on signed ints; when
`deleted_nl` exceeds the count this underflows to a negative count,
corrupting the array, which is modelled by `none`.  The non-truncating
branch composes `move_line_states (to := first+1, from := last+1)` and the
count decrement into `take (first+1) ++ drop (last+1)`. -/
def hl_delete {σ : Type} (first deleted_nl : Nat) (c : HlCache σ) : Option (HlCache σ) :=
  let count := c.slots.length
  let last := first + deleted_nl
  if count = 1 then some c
  else if first ≥ count then some c
  else if last + 1 ≥ count then
    if count < deleted_nl then none
    else some (truncate_line_states (count - deleted_nl) c)
  else
    some (new_hole (first + 1)
      { slots := c.slots.take (first + 1) ++ c.slots.drop (last + 1),
        firstHole := c.firstHole })

/-- The state that results from running the highlighter's state machine
over `lines[0..i)` from `s0`: the reference value the spec's invariant I2
compares cache slots against. -/
def runStates {σ L : Type} (f : σ → L → σ) (s0 : σ) (lines : List L) (i : Nat) : σ :=
  (lines.take i).foldl f s0

/-- Modelled from the spec: invariant I1 says a freshly attached syntax
leaves slot 0 holding the syntax's start state (the cache initialisation
lives in the buffer set-up code, which is not part of the sources).  The
first hole is then index 1. -/
def initLineStates {σ : Type} (s0 : σ) : HlCache σ :=
  { slots := [some s0], firstHole := 1 }

/-- `find_hole` never returns an index below the scan start. -/
theorem findHoleGo_ge {σ : Type} (slots : List (Option σ)) :
    ∀ bound pos, pos ≤ findHoleGo slots bound pos := by
  intro bound
  induction bound with
  | zero => intro pos; simp [findHoleGo]
  | succ n ih =>
    intro pos
    simp only [findHoleGo]
    split
    · exact Nat.le_trans (Nat.le_succ pos) (ih (pos + 1))
    · exact Nat.le_refl pos

/-- Every iteration of the fill loop strictly increases `first_hole`; this
is why the loop of `hl_fill_start_states` terminates and why the iteration
bound `line_nr + 2 - first_hole` used in the embedding is never
exhausted. -/
theorem fillStep_firstHole_lt {σ L : Type} [DecidableEq σ] (f : σ → L → σ)
    (lines : List L) (c c' : HlCache σ) (h : fillStep f lines c = some c') :
    c.firstHole < c'.firstHole := by
  unfold fillStep at h
  split at h
  · exact absurd h (by simp)
  · dsimp only at h
    split at h
    · split at h
      · rename_i hidx
        simp only [Option.some.injEq] at h
        subst h
        simp [hidx]
      · split at h
        · exact absurd h (by simp)
        · simp only [Option.some.injEq] at h
          subst h
          simp
        · split at h <;> simp only [Option.some.injEq] at h <;> subst h
          · exact Nat.lt_of_lt_of_le (Nat.lt_succ_self _)
              (findHoleGo_ge _ _ (c.firstHole + 1))
          · simp
    · exact absurd h (by simp)

/-- Modelled from the spec: one round of the hole-repair rule of §4.6 as the
claim states it, for the index `i = first_hole - 1`.  `s'` is
`line_hl(slots[i], lines[i]).state`.  The returned flag records whether the
hole-closed case (third bullet) fired.  The guard on `first_hole = 0` and
the `none` cases mirror the undefined behaviour of the embedded source
function `fillStep`, so that the two can be compared. -/
def fillRuleStep {σ L : Type} [DecidableEq σ] (f : σ → L → σ) (lines : List L)
    (c : HlCache σ) : Option (HlCache σ × Bool) :=
  if c.firstHole = 0 then none
  else
    let i := c.firstHole - 1
    match c.slots[i]?, lines[i]? with
    | some (some si), some li =>
      let s' := f si li
      if c.firstHole = c.slots.length then
        -- if i+1 == slots.len(): append Some(s'), advance first_hole
        some ({ slots := c.slots ++ [some s'], firstHole := c.firstHole + 1 }, false)
      else
        match c.slots[c.firstHole]? with
        | none => none
        | some none =>
          -- else if slots[i+1] is None: set to Some(s'), advance first_hole
          some ({ slots := c.slots.set c.firstHole (some s'),
                  firstHole := c.firstHole + 1 }, false)
        | some (some t) =>
          if t = s' then
            -- else if slots[i+1] == Some(s'): hole closed; scan forward from
            -- i+2 for the next None to re-seat first_hole
            some ({ slots := c.slots, firstHole := find_hole c.slots (c.firstHole + 1) }, true)
          else
            -- else: overwrite with Some(s'), set first_hole = i+2
            some ({ slots := c.slots.set c.firstHole (some s'),
                    firstHole := c.firstHole + 1 }, false)
    | _, _ => none

/-- Modelled from the spec: the fill of §4.6 driven by `fillRuleStep`.
With `stopOnClose = true` the hole-closed case stops the fill (the claim's
reading); with `stopOnClose = false` the fill keeps going until
`first_hole` exceeds the queried line. -/
def fillRuleGo {σ L : Type} [DecidableEq σ] (stopOnClose : Bool) (f : σ → L → σ)
    (lines : List L) (target : Nat) : Nat → HlCache σ → Option (HlCache σ)
  | 0, c => if target < c.firstHole then some c else none
  | bound + 1, c =>
    if target < c.firstHole then some c
    else
      match fillRuleStep f lines c with
      | none => none
      | some (c', closed) =>
        if stopOnClose && closed then some c'
        else fillRuleGo stopOnClose f lines target bound c'

/-- Modelled from the spec: the full hole-repair fill of §4.6 on a query
for line `target`. -/
def fillRuleSpec {σ L : Type} [DecidableEq σ] (stopOnClose : Bool) (f : σ → L → σ)
    (lines : List L) (target : Nat) (c : HlCache σ) : Option (HlCache σ) :=
  fillRuleGo stopOnClose f lines target (target + 2 - c.firstHole) c

/-- The spec's per-round rule and the body of the C fill loop compute the
same cache; the flag only records which case fired. -/
theorem fillRuleStep_fst {σ L : Type} [DecidableEq σ] (f : σ → L → σ)
    (lines : List L) (c : HlCache σ) :
    (fillRuleStep f lines c).map Prod.fst = fillStep f lines c := by
  unfold fillRuleStep fillStep
  by_cases h0 : c.firstHole = 0
  · simp [h0]
  · simp only [h0, if_false]
    cases hs : c.slots[c.firstHole - 1]? with
    | none => simp
    | some o =>
      cases o with
      | none => simp
      | some st0 =>
        cases hl : lines[c.firstHole - 1]? with
        | none => simp
        | some line =>
          dsimp only
          by_cases hlen : c.firstHole = c.slots.length
          · simp [hlen]
          · simp only [hlen, if_false]
            cases hi : c.slots[c.firstHole]? with
            | none => simp
            | some o2 =>
              cases o2 with
              | none => simp
              | some prev =>
                by_cases hp : prev = f st0 line
                · simp [hp]
                · simp [hp]

/-- With the continuation reading of the hole-closed case, the spec loop
and the embedded C loop agree step by step. -/
theorem fillRuleGo_false_eq {σ L : Type} [DecidableEq σ] (f : σ → L → σ)
    (lines : List L) (target : Nat) :
    ∀ bound c, fillRuleGo false f lines target bound c = fillGo f lines target bound c := by
  intro bound
  induction bound with
  | zero => intro c; rfl
  | succ n ih =>
    intro c
    unfold fillRuleGo fillGo
    by_cases h : target < c.firstHole
    · simp [h]
    · simp only [h, if_false]
      have hstep := fillRuleStep_fst f lines c
      cases hrs : fillRuleStep f lines c with
      | none =>
        rw [hrs] at hstep
        simp only [Option.map_none'] at hstep
        rw [← hstep]
      | some pair =>
        rw [hrs] at hstep
        obtain ⟨c', closed⟩ := pair
        simp only [Option.map_some'] at hstep
        rw [← hstep]
        simp [ih]

/-- Claim C1 (amended): hole repair fills forward per the four-case rule of
the spec, except that in the hole-closed case the fill does not stop
outright: it re-seats `first_hole` at the next `None` found from `i+2` and
continues from there, stopping only once `first_hole` exceeds the queried
line. -/
theorem hl_fill_matches_rule {σ L : Type} [DecidableEq σ] (f : σ → L → σ)
    (lines : List L) (line_nr : Nat) (c : HlCache σ) :
    hl_fill_start_states f lines line_nr c = fillRuleSpec false f lines line_nr c := by
  unfold hl_fill_start_states fillRuleSpec
  exact (fillRuleGo_false_eq f lines line_nr _ c).symm

/-- Claim C1 (counterexample): with a cache `[Some 0, Some 1, None]`,
`first_hole = 1` and the successor state function, a query for line 2 first
hits the hole-closed case (the recomputed state at index 1 matches), which
re-seats `first_hole` at 2 — but the fill then continues and fills slot 2,
whereas under the claim's `stop` reading slot 2 would remain `None`. -/
theorem hl_fill_stop_counterexample :
    hl_fill_start_states (fun (s : Nat) (_ : Unit) => s + 1) [(), (), ()] 2
        ⟨[some 0, some 1, none], 1⟩
      = some ⟨[some 0, some 1, some 2], 3⟩
    ∧ fillRuleSpec true (fun (s : Nat) (_ : Unit) => s + 1) [(), (), ()] 2
        ⟨[some 0, some 1, none], 1⟩
      = some ⟨[some 0, some 1, none], 2⟩
    ∧ (⟨[some 0, some 1, some 2], 3⟩ : HlCache Nat) ≠ ⟨[some 0, some 1, none], 2⟩ := by
  refine ⟨by decide, by decide, by decide⟩

/-- A concrete next-state function (for the claim C2 scenario): states and
lines are small naturals; only the listed transitions matter and every
other pair falls to state 0. -/
def hlC2f : Nat → Nat → Nat
  | 0, 10 => 1
  | 1, 11 => 2
  | 2, 12 => 3
  | 3, 13 => 4
  | 4, 14 => 5
  | 2, 20 => 7
  | 0, 21 => 2
  | 7, 13 => 8
  | _, _ => 0

/-- Lines of the claim C2 scenario buffer before any edit. -/
def hlC2lines0 : List Nat := [10, 11, 12, 13, 14, 99]

/-- The same buffer after an edit inside line 2 that adds no newline. -/
def hlC2lines1 : List Nat := [10, 11, 20, 13, 14, 99]

/-- The same buffer after additionally joining lines 0 and 1 (a deletion
removing one newline starting in line 0); the joined line 0 is `21`. -/
def hlC2lines2 : List Nat := [21, 20, 13, 14, 99]

/-- The claim C2 scenario: populate the cache for lines 0..5, edit line 2
(`hl_insert 2 0`), refill up to line 3 only (the repair overwrites the
changed state at index 3 and stops, leaving the stale state at index 4
one past the new `first_hole`), delete one newline at line 0
(`hl_delete 0 1`, which shifts the stale seam left), and query line 3
again. -/
def hlC2run : Option (HlCache Nat) :=
  (((hl_fill_start_states hlC2f hlC2lines0 5 (initLineStates 0)).map
      (hl_insert 2 0)).bind
    (hl_fill_start_states hlC2f hlC2lines1 3)).bind
    (fun c => (hl_delete 0 1 c).bind (hl_fill_start_states hlC2f hlC2lines2 3))

/-- Claim C2 (violated by the code): after the scenario `hlC2run`, the
final fill's hole-closed case re-seats `first_hole` past the stale slots
via `find_hole`, which trusts every non-`NULL` entry.  The reachable cache
has `first_hole = 4` yet `slots[3] = Some 4`, while running the state
machine over `lines[0..3)` from the initial state gives 8; and a subsequent
`hl_line` for line 2 computes `next = 8`, compares it with the cached 4 at
a slot below `first_hole`, and fires the code's own
`BUG_ON(s->ptrs[line_nr] != next)` (modelled as `none`). -/
theorem cache_invariant_violation_scenario :
    hlC2run = some ⟨[some 0, some 2, some 7, some 4, none], 4⟩
    ∧ runStates hlC2f 0 hlC2lines2 3 = 8
    ∧ ((3 : Nat) < 4
       ∧ (⟨[some 0, some 2, some 7, some 4, none], 4⟩ : HlCache Nat).slots[3]? = some (some 4)
       ∧ (4 : Nat) ≠ 8)
    ∧ hlC2run.bind (hl_line_states hlC2f hlC2lines2 2) = none := by
  refine ⟨by decide, by decide, ⟨by decide, by decide, by decide⟩, by decide⟩

/-- Claim C3 (counterexample): in the spec's scenario S4 the claim's
antecedent holds — the state the machine newly computes at index 12 equals
the pre-edit state cached at old index 10 (both 0 for this machine) — yet
after `on_insert(10, 2)` and a query for line 50 the hole repair does not
terminate at index 13: `hl_insert` also nulls slot 13 (the invalidation
loop covers `first+1..last+1`), so repair refills 11..13, closes the hole
at index 14, and `find_hole` re-seats `first_hole` at index 100 (the slot
`new_hole` nulled at the old `first_hole`), so `first_hole` ends at 100,
not 13. -/
theorem on_insert_query_counterexample :
    runStates (fun (_ : Nat) (_ : Unit) => 0) 0 (List.replicate 102 ()) 12 = 0
    ∧ (⟨List.replicate 100 (some 0), 100⟩ : HlCache Nat).slots[10]? = some (some 0)
    ∧ (hl_fill_start_states (fun (_ : Nat) (_ : Unit) => 0) (List.replicate 102 ()) 50
        (hl_insert 10 2 ⟨List.replicate 100 (some 0), 100⟩)).map HlCache.firstHole
      = some 100
    ∧ (100 : Nat) ≠ 13 := by
  refine ⟨by decide, by decide, by decide, by decide⟩

/-- Claim C3 (amended): starting from a cache populated for lines 0..99,
`on_insert(10, 2)` yields a cache of length 102 with slots 11, 12 and also
13 `None`, slot 100 `None` (marked by `new_hole` at the old `first_hole`)
and `first_hole = 11 ≤ 11`; a subsequent query for line 50 refills slots
11..13, and since the state newly computed at index 14 equals the shifted
pre-edit state there, hole repair re-seats `first_hole` at the next `None`
— index 100 — and stops there (not at 13). -/
theorem on_insert_query_scenario :
    hl_insert 10 2 (⟨List.replicate 100 (some 0), 100⟩ : HlCache Nat)
      = ⟨List.replicate 11 (some 0) ++ [none, none, none]
          ++ List.replicate 86 (some 0) ++ [none, some 0], 11⟩
    ∧ hl_fill_start_states (fun (_ : Nat) (_ : Unit) => 0) (List.replicate 102 ()) 50
        (hl_insert 10 2 ⟨List.replicate 100 (some 0), 100⟩)
      = some ⟨List.replicate 100 (some 0) ++ [none, some 0], 100⟩ := by
  refine ⟨by decide, by decide⟩

/-- Claim C6 (counterexample): the truncation target `len - deleted_nl` can
fall below `first_line`: on a fully populated cache of length 10,
`on_delete(2, 9)` truncates to length 1 < 2.  And the target is not
underflow-free when `deleted_nl` exceeds `len`: `on_delete(0, 50)` on a
cache of length 2 computes `2 - 50` on C ints, a negative count (modelled
as `none`); at `deleted_nl = len` the cache is truncated to length 0,
below the claimed minimum of 1. -/
theorem hl_delete_target_counterexample :
    hl_delete 2 9 (⟨List.replicate 10 (some 0), 10⟩ : HlCache Nat) = some ⟨[some 0], 1⟩
    ∧ (1 : Nat) < 2
    ∧ hl_delete 0 50 (⟨List.replicate 2 (some 0), 2⟩ : HlCache Nat) = none
    ∧ hl_delete 0 2 (⟨List.replicate 2 (some 0), 2⟩ : HlCache Nat) = some ⟨[], 0⟩ := by
  refine ⟨by decide, by decide, by decide, by decide⟩

/-- Claim C6 (amended): for every `on_delete(first, d)` call with cache
length `len ≥ 2`, `first < len` and `first + d + 1 ≥ len`, the cache is
truncated to length `len - d` with `first_hole` clamped to it; provided
additionally `d < len` the target is a valid length, at least 1 and at most
`first + 1` — but it may be less than `first`, and for `d ≥ len` it is not
valid (`d = len` truncates to 0; `d > len` underflows the C int). -/
theorem hl_delete_truncates {σ : Type} [DecidableEq σ] (c : HlCache σ)
    (first d : Nat) (h2 : 2 ≤ c.slots.length) (hf : first < c.slots.length)
    (hsum : c.slots.length ≤ first + d + 1) (hd : d < c.slots.length) :
    hl_delete first d c
      = some ⟨c.slots.take (c.slots.length - d), min c.firstHole (c.slots.length - d)⟩
    ∧ 1 ≤ c.slots.length - d ∧ c.slots.length - d ≤ first + 1 := by
  unfold hl_delete truncate_line_states
  have e1 : ¬ (c.slots.length = 1) := by omega
  have e2 : ¬ (first ≥ c.slots.length) := by omega
  have e3 : first + d + 1 ≥ c.slots.length := by omega
  have e4 : ¬ (c.slots.length < d) := by omega
  refine ⟨?_, by omega, by omega⟩
  simp only [e1, e2, e3, e4, if_true, if_false, ge_iff_le, not_le, not_lt, ite_false,
    ite_true, decide_eq_true_eq]

/-- Witness for `hl_delete_truncates` at a cache of length 3 with
`first = 1`, `d = 1`. -/
theorem hl_delete_truncates_witness :
    ((2 : Nat) ≤ 3 ∧ (1 : Nat) < 3 ∧ (3 : Nat) ≤ 1 + 1 + 1 ∧ (1 : Nat) < 3)
    ∧ hl_delete 1 1 (⟨[some 0, some 0, some 0], 3⟩ : HlCache Nat)
      = some ⟨[some 0, some 0], 2⟩ := by
  refine ⟨⟨by decide, by decide, by decide, by decide⟩, ?_⟩
  have h := (hl_delete_truncates (⟨[some 0, some 0, some 0], 3⟩ : HlCache Nat) 1 1
    (by decide) (by decide) (by decide) (by decide)).1
  rw [h]
  decide

/-- An action of the highlighter state machine (`struct action`): the color
to emit and the destination state.  Colors and states are identified by
number here (the C code uses pointers). -/
structure HlAction where
  emit : Nat
  dest : Nat

/-- A condition of a highlighter state (`struct condition`, src/hl.c and
the loader's `enum condition_type`).  Byte-class bitmaps are predicates on
byte values; strings are byte lists. -/
inductive HlCond where
  | charBuffer (bitmap : Nat → Bool) (a : HlAction)
  | bufis (icase : Bool) (pat : List Nat) (a : HlAction)
  | charCond (bitmap : Nat → Bool) (a : HlAction)
  | inlist (icase : Bool) (strings : List (List Nat)) (a : HlAction)
  | inlistHash (icase : Bool) (strings : List (List Nat)) (a : HlAction)
  | recolor (n : Nat) (a : HlAction)
  | recolorBuffer (a : HlAction)
  | strCond (pat : List Nat) (a : HlAction)
  | strICase (pat : List Nat) (a : HlAction)
  | str2 (c0 c1 : Nat) (a : HlAction)

/-- One state of the machine (`struct state`): an ordered condition list, a
default action and its `noeat` flag. -/
structure HlStateDef where
  conditions : List HlCond
  noeat : Bool
  defaultAct : HlAction

/-- A loaded syntax (`struct syntax`): the states, indexed by number. -/
structure HlMachine where
  states : List HlStateDef

/-- ASCII case folding, as `strncasecmp` does byte-wise. -/
def toLowerByte (b : Nat) : Nat := if 65 ≤ b ∧ b ≤ 90 then b + 32 else b

/-- `is_buffered` (src/hl.c:11): the buffered run `buf` (the bytes
`lineB[sidx..i)`) equals the condition's string, with exact length and
optional case folding. -/
def is_buffered (icase : Bool) (pat : List Nat) (buf : List Nat) : Bool :=
  if buf.length ≠ pat.length then false
  else if icase then decide (buf.map toLowerByte = pat.map toLowerByte)
  else decide (buf = pat)

/-- `in_list` / `list_search` (src/hl.c:21): exact-length membership of the
buffered run in the string list, with optional case folding. -/
def in_list (icase : Bool) (strings : List (List Nat)) (buf : List Nat) : Bool :=
  strings.any fun t =>
    if buf.length ≠ t.length then false
    else if icase then decide (buf.map toLowerByte = t.map toLowerByte)
    else decide (buf = t)

/-- `in_hash` (src/hl.c:51): same membership as `in_list`; the open-chained
hash table is a lookup optimization (the table type lives in a header that
is not among the sources), so it is modelled by list membership. -/
def in_hash (icase : Bool) (strings : List (List Nat)) (buf : List Nat) : Bool :=
  in_list icase strings buf

/-- Paint columns `lo..hi-1` with `color` (the recoloring loops of
`highlight_line`). -/
def paintRange (colors : List Nat) (lo hi color : Nat) : List Nat :=
  (List.range' lo (hi - lo)).foldl (fun acc j => acc.set j color) colors

/-- Result of walking a state's condition list at one position: either a
condition fired (taking its action: possibly updated colors, byte index,
buffer start, and the destination state to transition to), or no condition
matched and the default action applies.  `COND_RECOLOR` and
`COND_RECOLOR_BUFFER` update colors (and the latter resets `sidx`) without
firing. -/
inductive WalkOut where
  | fired (colors : List Nat) (i : Nat) (sidx : Option Nat) (dest : Nat)
  | noMatch (colors : List Nat) (sidx : Option Nat)
deriving DecidableEq

/-- The `for (ci = 0; ci < state->nr_conditions; ci++)` walk of
`highlight_line` (src/hl.c:93-190), translated case by case.  `ch` is
`lineB[i]`, read at the top of the outer loop.  A `goto top` in the C
(match found) is `WalkOut.fired`; falling out of the `for` is
`WalkOut.noMatch`.  `COND_RECOLOR` (src/hl.c:142-148) paints the last `n`
columns (clamped at 0) and then `break`s out of the `switch` only — the
walk continues with the next condition of the same state and no transition
happens. -/
def walkConds (lineB : List Nat) (ch : Nat) (colors : List Nat) (i : Nat)
    (sidx : Option Nat) : List HlCond → WalkOut
  | [] => .noMatch colors sidx
  | cond :: rest =>
    match cond with
    | .charBuffer bitmap a =>
      if bitmap ch then
        let sidx' := match sidx with
          | none => some i
          | some s => some s
        .fired (colors.set i a.emit) (i + 1) sidx' a.dest
      else walkConds lineB ch colors i sidx rest
    | .bufis icase pat a =>
      match sidx with
      | some s =>
        if is_buffered icase pat ((lineB.drop s).take (i - s)) then
          .fired (paintRange colors s i a.emit) i none a.dest
        else walkConds lineB ch colors i sidx rest
      | none => walkConds lineB ch colors i sidx rest
    | .charCond bitmap a =>
      if bitmap ch then .fired (colors.set i a.emit) (i + 1) none a.dest
      else walkConds lineB ch colors i sidx rest
    | .inlist icase strings a =>
      match sidx with
      | some s =>
        if in_list icase strings ((lineB.drop s).take (i - s)) then
          .fired (paintRange colors s i a.emit) i none a.dest
        else walkConds lineB ch colors i sidx rest
      | none => walkConds lineB ch colors i sidx rest
    | .inlistHash icase strings a =>
      match sidx with
      | some s =>
        if in_hash icase strings ((lineB.drop s).take (i - s)) then
          .fired (paintRange colors s i a.emit) i none a.dest
        else walkConds lineB ch colors i sidx rest
      | none => walkConds lineB ch colors i sidx rest
    | .recolor n a =>
      walkConds lineB ch (paintRange colors (i - n) i a.emit) i sidx rest
    | .recolorBuffer a =>
      match sidx with
      | some s => walkConds lineB ch (paintRange colors s i a.emit) i none rest
      | none => walkConds lineB ch colors i sidx rest
    | .strCond pat a =>
      if i + pat.length ≤ lineB.length ∧ (lineB.drop i).take pat.length = pat then
        .fired (paintRange colors i (i + pat.length) a.emit) (i + pat.length) none a.dest
      else walkConds lineB ch colors i sidx rest
    | .strICase pat a =>
      if i + pat.length ≤ lineB.length
          ∧ ((lineB.drop i).take pat.length).map toLowerByte = pat.map toLowerByte then
        .fired (paintRange colors i (i + pat.length) a.emit) (i + pat.length) none a.dest
      else walkConds lineB ch colors i sidx rest
    | .str2 c0 c1 a =>
      if ch = c0 ∧ i + 1 < lineB.length ∧ lineB[i + 1]? = some c1 then
        .fired ((colors.set i a.emit).set (i + 1) a.emit) (i + 2) none a.dest
      else walkConds lineB ch colors i sidx rest

/-- The outer `while (1)` loop of `highlight_line` (src/hl.c:84-197).  The
loop is not guaranteed to terminate for pathological machines (e.g. two
states whose `noeat` default actions point at each other), so an explicit
iteration bound is taken and exhausting it yields `none`; `none` also
models reaching a state number the machine does not define. -/
def hlRun (m : HlMachine) (lineB : List Nat) :
    Nat → Nat → List Nat → Nat → Option Nat → Option (List Nat × Nat)
  | 0, _, _, _, _ => none
  | bound + 1, s, colors, i, sidx =>
    if i = lineB.length then some (colors, s)
    else
      match m.states[s]? with
      | none => none
      | some sd =>
        let ch := lineB[i]?.getD 0
        match walkConds lineB ch colors i sidx sd.conditions with
        | .fired colors' i' sidx' dest => hlRun m lineB bound dest colors' i' sidx'
        | .noMatch colors' _ =>
          let a := sd.defaultAct
          if sd.noeat then hlRun m lineB bound a.dest colors' i none
          else hlRun m lineB bound a.dest (colors'.set i a.emit) (i + 1) none

/-- `highlight_line` (src/hl.c:73): run the machine over one lineB from
state `s0`, returning the per-byte colors and the end state.  The colors
array starts as junk (99); every cell below the final `i` is overwritten
before it is read. -/
def highlight_line (m : HlMachine) (s0 : Nat) (lineB : List Nat) (bound : Nat) :
    Option (List Nat × Nat) :=
  hlRun m lineB bound s0 (List.replicate lineB.length 99) 0 none

/-- Modelled from the spec: the condition walk as claim C4 reads it, where
a `RecolorBack(n)` condition fires like any other matching condition —
painting the last `n` bytes, leaving `i` and `sidx`, and transitioning to
its action's destination state.  All other cases are as in the source. -/
def walkCondsSpec (lineB : List Nat) (ch : Nat) (colors : List Nat) (i : Nat)
    (sidx : Option Nat) : List HlCond → WalkOut
  | [] => .noMatch colors sidx
  | cond :: rest =>
    match cond with
    | .recolor n a => .fired (paintRange colors (i - n) i a.emit) i sidx a.dest
    | .charBuffer bitmap a =>
      if bitmap ch then
        let sidx' := match sidx with
          | none => some i
          | some s => some s
        .fired (colors.set i a.emit) (i + 1) sidx' a.dest
      else walkCondsSpec lineB ch colors i sidx rest
    | .bufis icase pat a =>
      match sidx with
      | some s =>
        if is_buffered icase pat ((lineB.drop s).take (i - s)) then
          .fired (paintRange colors s i a.emit) i none a.dest
        else walkCondsSpec lineB ch colors i sidx rest
      | none => walkCondsSpec lineB ch colors i sidx rest
    | .charCond bitmap a =>
      if bitmap ch then .fired (colors.set i a.emit) (i + 1) none a.dest
      else walkCondsSpec lineB ch colors i sidx rest
    | .inlist icase strings a =>
      match sidx with
      | some s =>
        if in_list icase strings ((lineB.drop s).take (i - s)) then
          .fired (paintRange colors s i a.emit) i none a.dest
        else walkCondsSpec lineB ch colors i sidx rest
      | none => walkCondsSpec lineB ch colors i sidx rest
    | .inlistHash icase strings a =>
      match sidx with
      | some s =>
        if in_hash icase strings ((lineB.drop s).take (i - s)) then
          .fired (paintRange colors s i a.emit) i none a.dest
        else walkCondsSpec lineB ch colors i sidx rest
      | none => walkCondsSpec lineB ch colors i sidx rest
    | .recolorBuffer a =>
      match sidx with
      | some s => walkCondsSpec lineB ch (paintRange colors s i a.emit) i none rest
      | none => walkCondsSpec lineB ch colors i sidx rest
    | .strCond pat a =>
      if i + pat.length ≤ lineB.length ∧ (lineB.drop i).take pat.length = pat then
        .fired (paintRange colors i (i + pat.length) a.emit) (i + pat.length) none a.dest
      else walkCondsSpec lineB ch colors i sidx rest
    | .strICase pat a =>
      if i + pat.length ≤ lineB.length
          ∧ ((lineB.drop i).take pat.length).map toLowerByte = pat.map toLowerByte then
        .fired (paintRange colors i (i + pat.length) a.emit) (i + pat.length) none a.dest
      else walkCondsSpec lineB ch colors i sidx rest
    | .str2 c0 c1 a =>
      if ch = c0 ∧ i + 1 < lineB.length ∧ lineB[i + 1]? = some c1 then
        .fired ((colors.set i a.emit).set (i + 1) a.emit) (i + 2) none a.dest
      else walkCondsSpec lineB ch colors i sidx rest

/-- Modelled from the spec: the outer loop driven by `walkCondsSpec`. -/
def hlRunSpec (m : HlMachine) (lineB : List Nat) :
    Nat → Nat → List Nat → Nat → Option Nat → Option (List Nat × Nat)
  | 0, _, _, _, _ => none
  | bound + 1, s, colors, i, sidx =>
    if i = lineB.length then some (colors, s)
    else
      match m.states[s]? with
      | none => none
      | some sd =>
        let ch := lineB[i]?.getD 0
        match walkCondsSpec lineB ch colors i sidx sd.conditions with
        | .fired colors' i' sidx' dest => hlRunSpec m lineB bound dest colors' i' sidx'
        | .noMatch colors' _ =>
          let a := sd.defaultAct
          if sd.noeat then hlRunSpec m lineB bound a.dest colors' i none
          else hlRunSpec m lineB bound a.dest (colors'.set i a.emit) (i + 1) none

/-- Modelled from the spec: `highlight_line` under the claim's reading of
`RecolorBack`. -/
def highlight_lineRecolorSpec (m : HlMachine) (s0 : Nat) (lineB : List Nat)
    (bound : Nat) : Option (List Nat × Nat) :=
  hlRunSpec m lineB bound s0 (List.replicate lineB.length 99) 0 none

/-- A two-color machine distinguishing the two readings of `RecolorBack`:
state 0 has a single `RecolorBack(1)` condition whose action emits color 5
and points at state 2; state 0's default action emits color 7 into state 1;
state 2's default emits color 9. -/
def recolorM : HlMachine :=
  ⟨[⟨[HlCond.recolor 1 ⟨5, 2⟩], false, ⟨7, 1⟩⟩,
    ⟨[], false, ⟨8, 1⟩⟩,
    ⟨[], false, ⟨9, 2⟩⟩]⟩

/-- Claim C4 (counterexample): on the one-byte lineB `[100]` in `recolorM`,
the source's `highlight_line` lets `RecolorBack` paint and then falls
through to the default action — byte 0 gets the default's color 7 and the
machine moves to state 1 — whereas under the claim's reading (`RecolorBack`
fires and transitions to state 2) byte 0 would get state 2's default color
9 and the machine would end in state 2. -/
theorem recolor_transition_counterexample :
    highlight_line recolorM 0 [100] 10 = some ([7], 1)
    ∧ highlight_lineRecolorSpec recolorM 0 [100] 10 = some ([9], 2)
    ∧ (some ([7], 1) : Option (List Nat × Nat)) ≠ some ([9], 2) := by
  refine ⟨by decide, by decide, by decide⟩

/-- Claim C4 (amended): a `RecolorBack(n)` condition matches
unconditionally and paints the last `n` bytes (columns `i-n..i-1`, clamped
at 0) with its action's emit color; `i` is not advanced and `sidx` is not
reset — but no transition occurs: the walk continues with the remaining
conditions of the same state, and the action's destination state is
ignored. -/
theorem recolor_paints_without_transition (lineB : List Nat) (ch : Nat)
    (colors : List Nat) (i : Nat) (sidx : Option Nat) (n e d d' : Nat)
    (rest : List HlCond) :
    walkConds lineB ch colors i sidx (HlCond.recolor n ⟨e, d⟩ :: rest)
      = walkConds lineB ch (paintRange colors (i - n) i e) i sidx rest
    ∧ walkConds lineB ch colors i sidx (HlCond.recolor n ⟨e, d⟩ :: rest)
      = walkConds lineB ch colors i sidx (HlCond.recolor n ⟨e, d'⟩ :: rest) :=
  ⟨rfl, rfl⟩

/-- User-visible error messages the `filter` loop (src/src/spawn.c:96-175)
can emit, identified by site: `perror_msg("poll")`, `perror_msg("read")`,
the `error_msg` for a short read with unsent input, `perror_msg("write")`
and `perror_msg("close")`. -/
inductive FilterMsg where
  | pollFail
  | readFail
  | notAllData
  | writeFail
  | closeFail
deriving DecidableEq

/-- Ghost trace events marking which pipe-service branch of the poll loop
body ran, in program order. -/
inductive FEvent where
  | readService
  | writeService
deriving DecidableEq

/-- Outcome of the `poll` call at the top of an iteration: success, an
`EINTR` to retry, or another error. -/
inductive PollRes where
  | ok
  | eintr
  | fail
deriving DecidableEq

/-- Outcome of the `xread` call: an error (`rc < 0`) or the bytes read
(`[]` is the `rc == 0` end-of-file case). -/
inductive ReadRes where
  | fail
  | bytes (bs : List Nat)
deriving DecidableEq

/-- Outcome of the `xwrite` call: an error or the byte count written. -/
inductive WriteRes where
  | fail
  | wrote (n : Nat)
deriving DecidableEq

/-- The environment's behaviour during one iteration of the `filter` poll
loop: the poll outcome, the `revents` bits poll reported for the out-pipe
(`fds[0]`, read side) and the in-pipe (`fds[1]`, write side), and the
results of the system calls the body would make. -/
structure IterEv where
  pollRes : PollRes
  rIn : Bool
  wOut : Bool
  rHupErr : Bool
  rNval : Bool
  wHupErr : Bool
  wNval : Bool
  readRes : ReadRes
  writeRes : WriteRes
  wCloseFail : Bool
  rCleanCloseFail : Bool
  wCleanCloseFail : Bool
deriving DecidableEq

/-- The loop-carried state of `filter`: the output string collected so far,
`wlen` (input bytes written so far), and whether each pipe fd is still open
(`fds[i].fd >= 0`). -/
structure FilterCore where
  outBytes : List Nat
  wlen : Nat
  rLive : Bool
  wLive : Bool
deriving DecidableEq

/-- Result of one iteration: whether the loop continues, the new state, the
error messages emitted during the iteration, and the ghost service
trace. -/
structure IterRes where
  keepGoing : Bool
  st : FilterCore
  newMsgs : List FilterMsg
  trace : List FEvent
deriving DecidableEq

/-- The post-service sweep of the iteration (src/src/spawn.c:156-173): an
fd that is already closed or reported `POLLNVAL` is marked dead; one with
`POLLHUP`/`POLLERR` is closed (a failing close emits `perror_msg("close")`
but does not break); the loop ends when no fd is left active. -/
def filterCleanup (st : FilterCore) (ev : IterEv) (msgs : List FilterMsg)
    (trace : List FEvent) : IterRes :=
  let rLive' := st.rLive && !ev.rNval && !ev.rHupErr
  let wLive' := st.wLive && !ev.wNval && !ev.wHupErr
  let rMsg : List FilterMsg :=
    if st.rLive && !ev.rNval && ev.rHupErr && ev.rCleanCloseFail then [.closeFail] else []
  let wMsg : List FilterMsg :=
    if st.wLive && !ev.wNval && ev.wHupErr && ev.wCleanCloseFail then [.closeFail] else []
  { keepGoing := rLive' || wLive',
    st := { st with rLive := rLive', wLive := wLive' },
    newMsgs := msgs ++ rMsg ++ wMsg,
    trace := trace }

/-- The write-service branch of the iteration (src/src/spawn.c:140-154):
if poll flagged `POLLOUT` on the in-pipe, write the remaining input; on
success advance `wlen`, and once all input is sent close the in-pipe
(breaking with `perror_msg("close")` if the close fails). -/
def filterWrite (input : List Nat) (st : FilterCore) (ev : IterEv)
    (t0 : List FEvent) : IterRes :=
  if ev.wOut then
    let t1 := t0 ++ [FEvent.writeService]
    match ev.writeRes with
    | .fail => { keepGoing := false, st := st, newMsgs := [.writeFail], trace := t1 }
    | .wrote n =>
      let st' := { st with wlen := st.wlen + n }
      if st'.wlen = input.length then
        if ev.wCloseFail then
          { keepGoing := false, st := st', newMsgs := [.closeFail], trace := t1 }
        else filterCleanup { st' with wLive := false } ev [] t1
      else filterCleanup st' ev [] t1
  else filterCleanup st ev [] t0

/-- One iteration of the `while (1)` poll loop of `filter`
(src/src/spawn.c:113-174).  After a successful poll the body services the
out-pipe read branch first (`fds[0].revents & POLLIN`,
src/src/spawn.c:122-138) — appending read bytes to the output, or breaking
on a read error, or breaking on a 0-byte read with the
"Command did not read all data" message exactly when `wlen` is still short
of the input length — and only then services the in-pipe write branch
(`fds[1].revents & POLLOUT`, src/src/spawn.c:140-154). -/
def filter_iter (input : List Nat) (st : FilterCore) (ev : IterEv) : IterRes :=
  match ev.pollRes with
  | .eintr => { keepGoing := true, st := st, newMsgs := [], trace := [] }
  | .fail => { keepGoing := false, st := st, newMsgs := [.pollFail], trace := [] }
  | .ok =>
    if ev.rIn then
      let t0 := [FEvent.readService]
      match ev.readRes with
      | .fail => { keepGoing := false, st := st, newMsgs := [.readFail], trace := t0 }
      | .bytes [] =>
        { keepGoing := false, st := st,
          newMsgs := if st.wlen < input.length then [.notAllData] else [],
          trace := t0 }
      | .bytes bs => filterWrite input { st with outBytes := st.outBytes ++ bs } ev t0
    else filterWrite input st ev []

/-- `writeService` precedes `readService` in `t`. -/
def servedBefore (a b : FEvent) : List FEvent → Bool
  | [] => false
  | x :: xs => if x = b then false else if x = a then xs.contains b else servedBefore a b xs

/-- The write branch never emits the short-read message. -/
theorem filterWrite_no_notAllData (input : List Nat) (st : FilterCore)
    (ev : IterEv) (t0 : List FEvent) :
    FilterMsg.notAllData ∉ (filterWrite input st ev t0).newMsgs := by
  unfold filterWrite filterCleanup
  repeat' split
  all_goals aesop

/-- The write branch only ever appends the write event to the trace. -/
theorem filterWrite_trace (input : List Nat) (st : FilterCore) (ev : IterEv)
    (t0 : List FEvent) :
    (filterWrite input st ev t0).trace = t0
    ∨ (filterWrite input st ev t0).trace = t0 ++ [FEvent.writeService] := by
  unfold filterWrite filterCleanup
  repeat' split
  all_goals aesop

/-- Claim C8: one filter iteration emits "Command did not read all data"
exactly when the poll succeeded, the out-pipe was readable, the read
returned 0 bytes, and fewer than all input bytes have been written; and a
0-byte read always breaks the loop. -/
theorem filter_eof_error_iff (input : List Nat) (st : FilterCore) (ev : IterEv) :
    (FilterMsg.notAllData ∈ (filter_iter input st ev).newMsgs ↔
      (ev.pollRes = PollRes.ok ∧ ev.rIn = true ∧ ev.readRes = ReadRes.bytes []
        ∧ st.wlen < input.length))
    ∧ (ev.pollRes = PollRes.ok → ev.rIn = true → ev.readRes = ReadRes.bytes [] →
        (filter_iter input st ev).keepGoing = false) := by
  cases hp : ev.pollRes with
  | eintr => simp [filter_iter, hp]
  | fail => simp [filter_iter, hp]
  | ok =>
    cases hr : ev.rIn with
    | false => simp [filter_iter, hp, hr, filterWrite_no_notAllData]
    | true =>
      cases hrr : ev.readRes with
      | fail => simp [filter_iter, hp, hr, hrr]
      | bytes bs =>
        cases bs with
        | nil =>
          by_cases hw : st.wlen < input.length <;>
            simp [filter_iter, hp, hr, hrr, hw]
        | cons b rest => simp [filter_iter, hp, hr, hrr, filterWrite_no_notAllData]

/-- Witness for `filter_eof_error_iff`: a concrete iteration seeing a
0-byte read with only 0 of 2 input bytes written emits the message and
stops the loop. -/
theorem filter_eof_error_iff_witness :
    FilterMsg.notAllData ∈ (filter_iter [1, 2] ⟨[], 0, true, true⟩
        ⟨PollRes.ok, true, false, false, false, false, false,
         ReadRes.bytes [], WriteRes.wrote 0, false, false, false⟩).newMsgs
    ∧ (filter_iter [1, 2] ⟨[], 0, true, true⟩
        ⟨PollRes.ok, true, false, false, false, false, false,
         ReadRes.bytes [], WriteRes.wrote 0, false, false, false⟩).keepGoing = false := by
  have h := filter_eof_error_iff [1, 2] ⟨[], 0, true, true⟩
    ⟨PollRes.ok, true, false, false, false, false, false,
     ReadRes.bytes [], WriteRes.wrote 0, false, false, false⟩
  exact ⟨h.1.mpr (by refine ⟨rfl, rfl, rfl, by decide⟩), h.2 rfl rfl rfl⟩

/-- Claim C7 (amended): within a single iteration of the `filter` poll
loop, the write branch is never serviced before the read branch — the body
services the out-pipe read first, then the in-pipe write (the reverse of
the claimed order). -/
theorem filter_write_never_serviced_first (input : List Nat) (st : FilterCore)
    (ev : IterEv) :
    servedBefore FEvent.writeService FEvent.readService
      (filter_iter input st ev).trace = false := by
  have hshapes : (filter_iter input st ev).trace = []
      ∨ (filter_iter input st ev).trace = [FEvent.readService]
      ∨ (filter_iter input st ev).trace = [FEvent.readService, FEvent.writeService]
      ∨ (filter_iter input st ev).trace = [FEvent.writeService] := by
    cases hp : ev.pollRes with
    | eintr => simp [filter_iter, hp]
    | fail => simp [filter_iter, hp]
    | ok =>
      cases hr : ev.rIn with
      | false =>
        rcases filterWrite_trace input st ev [] with h | h <;>
          simp [filter_iter, hp, hr, h]
      | true =>
        cases hrr : ev.readRes with
        | fail => simp [filter_iter, hp, hr, hrr]
        | bytes bs =>
          cases bs with
          | nil => simp [filter_iter, hp, hr, hrr]
          | cons b rest =>
            rcases filterWrite_trace input { st with outBytes := st.outBytes ++ b :: rest }
                ev [FEvent.readService] with h | h <;>
              simp [filter_iter, hp, hr, hrr, h]
  rcases hshapes with h | h | h | h <;> rw [h] <;> decide

/-- The environment of the claim C7 counterexample: a successful poll
reporting both pipes ready, a 1-byte read and a 1-byte write. -/
def evBothReady : IterEv :=
  ⟨PollRes.ok, true, true, false, false, false, false,
   ReadRes.bytes [9], WriteRes.wrote 1, false, false, false⟩

/-- Claim C7 (counterexample): in an iteration where poll reports both the
in-pipe writable and the out-pipe readable, the trace is read-then-write:
the write service does not precede the read service — the claimed order is
the reverse of what the code does. -/
theorem filter_service_order_counterexample :
    (filter_iter [1, 2, 3] ⟨[], 0, true, true⟩ evBothReady).trace
      = [FEvent.readService, FEvent.writeService]
    ∧ servedBefore FEvent.writeService FEvent.readService
        (filter_iter [1, 2, 3] ⟨[], 0, true, true⟩ evBothReady).trace = false
    ∧ servedBefore FEvent.readService FEvent.writeService
        (filter_iter [1, 2, 3] ⟨[], 0, true, true⟩ evBothReady).trace = true := by
  refine ⟨by decide, by decide, by decide⟩

/-- The `ExecAction` enum of `cmd_exec` (src/src/commands.c:687-697). -/
inductive CmdExecAction where
  | bufferC
  | errmsgC
  | evalC
  | lineC
  | msgC
  | nullC
  | openC
  | tagC
  | ttyC
deriving DecidableEq

/-- The `SpawnAction` choice for one child fd (src/src/spawn.h). -/
inductive SpawnActionT where
  | nullS
  | ttyS
  | pipeS
deriving DecidableEq

/-- The `spawn_action` column of `exec_map` (src/src/commands.c:706-721). -/
def exec_map_spawn_action : CmdExecAction → SpawnActionT
  | .bufferC => .pipeS
  | .errmsgC => .pipeS
  | .evalC => .pipeS
  | .lineC => .pipeS
  | .msgC => .pipeS
  | .nullC => .nullS
  | .openC => .pipeS
  | .tagC => .pipeS
  | .ttyC => .ttyS

/-- The `flags` column of `exec_map` (src/src/commands.c:706-721), with the
`ExecFlags` bits `IN = 1`, `OUT = 2`, `ERR = 4`. -/
def exec_map_flags : CmdExecAction → Nat
  | .bufferC => 1 ||| 2
  | .errmsgC => 4
  | .evalC => 2
  | .lineC => 1
  | .msgC => 1 ||| 2
  | .nullC => 1 ||| 2 ||| 4
  | .openC => 2
  | .tagC => 2
  | .ttyC => 1 ||| 2 ||| 4

/-- The per-fd role validity check of `cmd_exec`
(src/src/commands.c:752-756): an action named for flag `-i`/`-o`/`-e`
(fd 0/1/2) is accepted iff the `exec_map` entry has the matching
`ExecFlags` bit (`exec_map[action].flags & 1u << fd_idx`). -/
def exec_action_valid_for_fd (a : CmdExecAction) (fd : Nat) : Bool :=
  exec_map_flags a &&& (1 <<< fd) != 0

/-- The assertion at the top of `spawn` (src/src/spawn.c:294):
`BUG_ON(actions[STDERR_FILENO] == SPAWN_PIPE)` holds iff the stderr action
is not a pipe. -/
def spawn_stderr_assert_ok (a : SpawnActionT) : Bool :=
  a != SpawnActionT.pipeS

/-- Claim C5 (violated by the code): the `errmsg` action is accepted by the
validity check for the stderr role (`exec_map` gives it the `ERR` bit), yet
its spawn action is `SPAWN_PIPE`, so `cmd_exec -e errmsg` reaches `spawn`
with `actions[2] == SPAWN_PIPE` and the assertion's failure branch fires —
it is not unreachable. -/
theorem exec_errmsg_fires_spawn_assert :
    exec_action_valid_for_fd CmdExecAction.errmsgC 2 = true
    ∧ exec_map_spawn_action CmdExecAction.errmsgC = SpawnActionT.pipeS
    ∧ spawn_stderr_assert_ok (exec_map_spawn_action CmdExecAction.errmsgC) = false := by
  refine ⟨by decide, by decide, by decide⟩

/-- The `ExecAction` enum of `handle_exec` (src/src/exec.h), which also has
the `word` input action. -/
inductive ExecActionE where
  | bufferE
  | errmsgE
  | evalE
  | lineE
  | msgE
  | nullE
  | openE
  | tagE
  | ttyE
  | wordE
deriving DecidableEq

/-- Output-routing effects of `handle_exec` (src/src/exec.c:247-279), one
per consumer of the child's stdout. -/
inductive RouteEv where
  | replaceBufferEv
  | activateMsgEv
  | openFilesEv
  | gotoTagEv
  | runCmdsEv
deriving DecidableEq

/-- Observable outcome of `handle_exec`: the view cursor, the routing
effects performed, whether `show_spawn_error_msg` displayed an error, and
the return value (output length, or -1 on failure). -/
structure ExecOut where
  cursor : Nat
  routes : List RouteEv
  errShown : Bool
  ret : Int
deriving DecidableEq

/-- Input actions legal in the input-preparation switch of `handle_exec`
(src/src/exec.c:161-221); the remaining ones hit
`BUG("unhandled action")`. -/
def exec_input_action_ok : ExecActionE → Bool
  | .openE | .tagE | .evalE | .errmsgE => false
  | _ => true

/-- The output-routing switch of `handle_exec` (src/src/exec.c:247-279):
the effects performed per stdout action; `none` is the
`BUG("unhandled action")` default. -/
def exec_output_routes : ExecActionE → Option (List RouteEv)
  | .bufferE => some [.replaceBufferEv]
  | .msgE => some [.activateMsgEv]
  | .openE => some [.openFilesEv]
  | .tagE => some [.gotoTagEv]
  | .evalE => some [.runCmdsEv]
  | .nullE | .ttyE => some []
  | .lineE | .errmsgE | .wordE => none

/-- `handle_exec` (src/src/exec.c:137-284), abstracted to its cursor and
routing behaviour.  `prep` models the cursor movement performed while
preparing input (`move_bol`, `move_bof`, `prepare_selection`, cursor
offset adjustment for `word`); `err` is the value `spawn` returned;
`curAfterRoute` models the cursor after a routing action that moves it
(buffer replacement, message activation, ...); `outLen` is the collected
output length.  The saved cursor is taken before input preparation and
restored exactly when `err ≠ 0`, in which case no routing happens and -1
is returned (`show_spawn_error_msg` only displays for `err > 0`). -/
def handle_exec_model (prep : ExecActionE → Nat → Nat) (a0 a1 : ExecActionE)
    (err : Int) (cur0 : Nat) (curAfterRoute : Nat) (outLen : Nat) : Option ExecOut :=
  let saved := cur0
  if exec_input_action_ok a0 = false then none
  else
    let cur1 := prep a0 cur0
    if err ≠ 0 then
      some { cursor := saved, routes := [], errShown := decide (0 < err), ret := -1 }
    else
      match exec_output_routes a1 with
      | none => none
      | some routes =>
        some { cursor := if routes = [] then cur1 else curAfterRoute,
               routes := routes, errShown := false, ret := (outLen : Int) }

/-- Claim C9: whenever `spawn` reports failure (non-zero status or spawn
error), `handle_exec` restores the cursor saved before input preparation
began and performs no output routing. -/
theorem exec_spawn_failure_restores_cursor (prep : ExecActionE → Nat → Nat)
    (a0 a1 : ExecActionE) (err : Int) (cur0 curAfterRoute outLen : Nat)
    (hok : exec_input_action_ok a0 = true) (herr : err ≠ 0) :
    handle_exec_model prep a0 a1 err cur0 curAfterRoute outLen
      = some { cursor := cur0, routes := [], errShown := decide (0 < err), ret := -1 } := by
  unfold handle_exec_model
  simp [hok, herr]

/-- Witness for `exec_spawn_failure_restores_cursor`: a `line`-input,
`buffer`-output exec whose child exits with status 2, with an input
preparation that moves the cursor from 5 to 12; the final cursor is the
saved 5 and no routing happened. -/
theorem exec_spawn_failure_restores_cursor_witness :
    (exec_input_action_ok ExecActionE.lineE = true ∧ (2 : Int) ≠ 0)
    ∧ handle_exec_model (fun _ n => n + 7) ExecActionE.lineE ExecActionE.bufferE
        2 5 9 3
      = some { cursor := 5, routes := [], errShown := true, ret := -1 } := by
  refine ⟨⟨by decide, by decide⟩, ?_⟩
  have h := exec_spawn_failure_restores_cursor (fun _ n => n + 7)
    ExecActionE.lineE ExecActionE.bufferE 2 5 9 3 (by decide) (by decide)
  rw [h]
  decide

/-- A file-descriptor lifecycle event in the parent process of `spawn`. -/
inductive FdEv where
  | fdOpen (n : Nat)
  | fdClose (n : Nat)
deriving DecidableEq

/-- A symbolic fd allocator plus event log: `next` is the next fd number
the kernel would hand out (3 at entry to `spawn`), and `events` records
every open and close the parent performs, in order. -/
structure FdLog where
  next : Nat
  events : List FdEv
deriving DecidableEq

/-- Allocate the next fd (an `open_dev_null` or one end of
`pipe_cloexec`). -/
def fdAlloc (l : FdLog) : Nat × FdLog :=
  (l.next, { next := l.next + 1, events := l.events ++ [FdEv.fdOpen l.next] })

/-- `safe_xclose` (src/src/spawn.c:283): close the fd only if it is valid
and not stdin/stdout/stderr. -/
def safe_xclose (fd : Int) (l : FdLog) : FdLog :=
  if fd > 2 then { l with events := l.events ++ [FdEv.fdClose fd.toNat] } else l

/-- The per-fd set-up switch of `spawn` (src/src/spawn.c:296-326): `Tty`
passes fd `i` through unless quiet (then, like `Null`, /dev/null is
opened); `Pipe` creates a pipe whose read end is the child side for fd 0
and the write end for fds 1 and 2.  Returns (child-side fd, parent-side
fd, log); -1 marks "no fd". -/
def spawnSetupFd (i : Nat) (a : SpawnActionT) (quiet : Bool) (l : FdLog) :
    Int × Int × FdLog :=
  match a with
  | .ttyS =>
    if !quiet then ((i : Int), -1, l)
    else
      let (n, l') := fdAlloc l
      ((n : Int), -1, l')
  | .nullS =>
    let (n, l') := fdAlloc l
    ((n : Int), -1, l')
  | .pipeS =>
    let (p0, l1) := fdAlloc l
    let (p1, l2) := fdAlloc l1
    if i = 0 then ((p0 : Int), (p1 : Int), l2) else ((p1 : Int), (p0 : Int), l2)

/-- The file-descriptor lifecycle of `spawn` (src/src/spawn.c:287-384),
with pipe/open failures out of scope (every allocation succeeds).  `none`
is the `BUG_ON(actions[STDERR_FILENO] == SPAWN_PIPE)` abort.  On fork
failure the `error_close` path closes child- and parent-side fds of each
slot in turn.  On success the parent executes the three `safe_xclose`
calls of src/src/spawn.c:335-337 — which close `child_fds[1]` twice and
never close `child_fds[2]` — then runs the I/O phase (the bidirectional
filter may close parent-side fds, given here as `filterParentCloses`), and
finally closes the parent-side fds. -/
def spawn_fd_model (a0 a1 a2 : SpawnActionT) (quiet forkOk : Bool)
    (filterParentCloses : List Nat) : Option (FdLog × Bool) :=
  if a2 = SpawnActionT.pipeS then none
  else
    let (c0, p0, l0) := spawnSetupFd 0 a0 quiet { next := 3, events := [] }
    let (c1, p1, l1) := spawnSetupFd 1 a1 quiet l0
    let (c2, p2, l2) := spawnSetupFd 2 a2 quiet l1
    if forkOk = false then
      let l3 := safe_xclose p0 (safe_xclose c0 l2)
      let l4 := safe_xclose p1 (safe_xclose c1 l3)
      let l5 := safe_xclose p2 (safe_xclose c2 l4)
      some (l5, false)
    else
      let l3 := safe_xclose c0 l2
      let l4 := safe_xclose c1 l3
      let l5 := safe_xclose c1 l4
      let l6 :=
        if a0 = SpawnActionT.pipeS ∧ a1 = SpawnActionT.pipeS then
          { l5 with events := l5.events ++ filterParentCloses.map FdEv.fdClose }
        else l5
      let l7 := safe_xclose p2 (safe_xclose p1 (safe_xclose p0 l6))
      some (l7, true)

/-- Claim C10 (violated by the code): a successful `spawn` with
`[Pipe, Pipe, Null]` actions allocates child-side fds 3 (stdin pipe read
end), 6 (stdout pipe write end) and 7 (/dev/null for stderr); on return
the parent has closed fd 6 twice (the duplicated `safe_xclose(child_fds[1])`
at src/src/spawn.c:336-337) and has never closed fd 7 (no
`safe_xclose(child_fds[2])` exists on the success path), although it opened
it. -/
theorem spawn_child_fd_close_accounting :
    (spawn_fd_model SpawnActionT.pipeS SpawnActionT.pipeS SpawnActionT.nullS
        false true [5, 4]).map
      (fun r => (r.1.events.count (FdEv.fdClose 6),
                 r.1.events.count (FdEv.fdOpen 7),
                 r.1.events.count (FdEv.fdClose 7),
                 r.2))
      = some (2, 1, 0, true) := by
  decide
